import Mathlib

/-!
Verification of the rag-bot synchronization core against its specification.

The TypeScript sources are shallowly embedded: JS strings become `List Char`
(one element per UTF-16 code unit), fallible functions return `Except`,
async orchestration becomes explicit environment passing, and retry loops
become fuel-indexed recursion (the fuel is the exact remaining attempt
budget of the source loop).
-/

set_option maxHeartbeats 1000000
set_option maxRecDepth 100000

namespace RagBot

/-! ### Embedding of `src/lib/iterator.ts` (`batchIterate`) -/

/-- The generator body: `batch` is the accumulator being filled; a batch is
emitted as soon as `batch.length >= size`; a non-empty final batch is
emitted after the source is exhausted. -/
def batchLoop {α : Type} (size : Nat) : List α → List α → List (List α)
  | [], batch => if 0 < batch.length then [batch] else []
  | x :: rest, batch =>
    let b := batch ++ [x]
    if size ≤ b.length then b :: batchLoop size rest [] else batchLoop size rest b

/-- `batchIterate(iterable, size)` over a finite materialized source. -/
def batchIterate {α : Type} (items : List α) (size : Nat) : List (List α) :=
  batchLoop size items []

theorem batchLoop_flatten {α : Type} (size : Nat) :
    ∀ (l batch : List α), (batchLoop size l batch).flatten = batch ++ l := by
  intro l
  induction l with
  | nil =>
    intro batch
    by_cases h : 0 < batch.length
    · simp [batchLoop, h]
    · have : batch = [] := List.eq_nil_of_length_eq_zero (Nat.eq_zero_of_not_pos h)
      simp [batchLoop, h, this]
  | cons x rest ih =>
    intro batch
    by_cases h : size ≤ batch.length + 1
    · simp [batchLoop, h, ih]
    · simp [batchLoop, h, ih]

theorem batchLoop_mem_length {α : Type} (size : Nat) (hs : 0 < size) :
    ∀ (l batch : List α), batch.length < size →
      ∀ b ∈ batchLoop size l batch, 0 < b.length ∧ b.length ≤ size := by
  intro l
  induction l with
  | nil =>
    intro batch hlt b hb
    by_cases h : 0 < batch.length
    · simp [batchLoop, h] at hb
      exact hb ▸ ⟨h, Nat.le_of_lt hlt⟩
    · simp [batchLoop, h] at hb
  | cons x rest ih =>
    intro batch hlt b hb
    by_cases h : size ≤ (batch ++ [x]).length
    · simp only [batchLoop, h, if_pos] at hb
      rcases List.mem_cons.mp hb with hb | hb
      · have hlen : (batch ++ [x]).length = size := by
          have : (batch ++ [x]).length ≤ size := by
            simpa [List.length_append] using hlt
          exact Nat.le_antisymm this h
        exact hb ▸ ⟨hlen ▸ hs, Nat.le_of_eq hlen⟩
      · exact ih [] (by simpa using hs) b hb
    · simp only [batchLoop, h, if_neg, not_false_iff] at hb
      exact ih (batch ++ [x]) (Nat.lt_of_not_le h) b hb

theorem batchLoop_dropLast_length {α : Type} (size : Nat) :
    ∀ (l batch : List α), batch.length < size →
      ∀ b ∈ (batchLoop size l batch).dropLast, b.length = size := by
  intro l
  induction l with
  | nil =>
    intro batch _ b hb
    by_cases h : 0 < batch.length <;> simp [batchLoop, h] at hb
  | cons x rest ih =>
    intro batch hlt b hb
    by_cases h : size ≤ (batch ++ [x]).length
    · simp only [batchLoop, h, if_pos] at hb
      have hlen : (batch ++ [x]).length = size := by
        have hle : (batch ++ [x]).length ≤ size := by
          simpa [List.length_append] using hlt
        exact Nat.le_antisymm hle h
      cases htail : batchLoop size rest [] with
      | nil => rw [htail] at hb; simp at hb
      | cons t ts =>
        rw [htail, List.dropLast_cons₂] at hb
        rcases List.mem_cons.mp hb with hb | hb
        · exact hb ▸ hlen
        · have hsz : 0 < size := hlen ▸ (by simp)
          exact ih [] (by simpa using hsz) b (htail ▸ hb)
    · simp only [batchLoop, h, if_neg, not_false_iff] at hb
      exact ih (batch ++ [x]) (Nat.lt_of_not_le h) b hb

/-- Claim C8: for every batch size ≥ 1 and every finite input sequence,
concatenating the batches emitted by `batchIterate` in order reproduces the
original sequence exactly; every emitted batch except possibly the last has
exactly `size` items and every batch has between 1 and `size` items; an
empty input yields zero batches. -/
theorem batchIterate_spec {α : Type} (size : Nat) (hs : 1 ≤ size) (items : List α) :
    (batchIterate items size).flatten = items ∧
    (∀ b ∈ (batchIterate items size).dropLast, b.length = size) ∧
    (∀ b ∈ batchIterate items size, 1 ≤ b.length ∧ b.length ≤ size) ∧
    batchIterate ([] : List α) size = [] := by
  refine ⟨by simpa using batchLoop_flatten size items [], ?_, ?_, ?_⟩
  · exact batchLoop_dropLast_length size items [] (by simpa using hs)
  · exact batchLoop_mem_length size hs items [] (by simpa using hs)
  · simp [batchIterate, batchLoop]

/-- Witness for C8 at batch size 2 over the input `[1, 2, 3]`. -/
theorem batchIterate_spec_witness :
    1 ≤ 2 ∧
    ((batchIterate [1, 2, 3] 2).flatten = [1, 2, 3] ∧
      (∀ b ∈ (batchIterate [1, 2, 3] 2).dropLast, b.length = 2) ∧
      (∀ b ∈ batchIterate [1, 2, 3] 2, 1 ≤ b.length ∧ b.length ≤ 2) ∧
      batchIterate ([] : List Nat) 2 = []) :=
  ⟨by decide, batchIterate_spec 2 (by decide) [1, 2, 3]⟩

/-! ### Embedding of `src/core/domain/document/entity.ts` and
`src/core/domain/document/valueObject.ts` -/

inductive DocumentErrorCode where
  | fetchFailed
  | saveFailed
  | invalidUrl
  | emptyContent
  | emptyTitle
deriving DecidableEq

structure BusinessRuleError where
  code : DocumentErrorCode
  message : String
deriving DecidableEq

/-- The ASCII part of the whitespace class removed by `String.prototype.trim`. -/
def isJsWhitespace (c : Char) : Bool :=
  c == ' ' || c == '\t' || c == '\n' || c == '\r' || c == '\x0B' || c == '\x0C'

/-- `s.trim()`: strip leading and trailing whitespace. -/
def jsTrim (s : List Char) : List Char :=
  ((s.dropWhile isJsWhitespace).reverse.dropWhile isJsWhitespace).reverse

inductive MetaValue where
  | str (s : String)
  | num (n : Int)
  | flag (b : Bool)
  | null
deriving DecidableEq

inductive DocumentFormat where
  | json
  | html
  | text
deriving DecidableEq

structure DocumentMetadata where
  sourceUrl : List Char
  format : DocumentFormat
  additionalData : List (String × MetaValue)
deriving DecidableEq

structure Document where
  id : String
  title : List Char
  content : List Char
  metadata : DocumentMetadata
  fetchedAt : Nat
deriving DecidableEq

/-- `createDocument`: rejects empty / whitespace-only content
(`!params.content || params.content.trim() === ""`); the title is cast
unchecked (`params.title as DocumentTitle`). -/
def createDocument (id : String) (title content : List Char)
    (metadata : DocumentMetadata) (fetchedAt : Nat) : Except BusinessRuleError Document :=
  if content.isEmpty || (jsTrim content).isEmpty then
    .error ⟨.emptyContent, "Document content cannot be empty"⟩
  else
    .ok ⟨id, title, content, metadata, fetchedAt⟩

/-- `createDocumentTitle` from the value-object module: rejects empty /
whitespace-only titles with `DOCUMENT_EMPTY_TITLE`. -/
def createDocumentTitle (value : List Char) : Except BusinessRuleError (List Char) :=
  if value.isEmpty || (jsTrim value).isEmpty then
    .error ⟨.emptyTitle, "Document title cannot be empty"⟩
  else
    .ok value

def exampleMetadata : DocumentMetadata :=
  ⟨"https://example.com/doc".toList, .html, []⟩

/-- Claim C3, counterexample: `createDocument` accepts an empty title —
a `Document` whose title is the empty string is constructed successfully,
so construction does not fail on an empty title. -/
theorem createDocument_empty_title_accepted :
    createDocument "doc-1" [] ['x'] exampleMetadata 0
      = .ok ⟨"doc-1", [], ['x'], exampleMetadata, 0⟩ := rfl

/-- Claim C3 (amended): `createDocument` fails immediately exactly when the
content is empty or whitespace-only; the title is never validated there,
so any title (including the empty one) is accepted; empty-title rejection
exists only in the separate `createDocumentTitle` value-object constructor. -/
theorem createDocument_validates_content_only :
    (∀ (id : String) (title content : List Char) (md : DocumentMetadata) (ts : Nat),
        (content.isEmpty || (jsTrim content).isEmpty) = true →
        createDocument id title content md ts
          = .error ⟨.emptyContent, "Document content cannot be empty"⟩) ∧
    createDocumentTitle [] = .error ⟨.emptyTitle, "Document title cannot be empty"⟩ ∧
    (∀ (id : String) (content : List Char) (md : DocumentMetadata) (ts : Nat),
        (content.isEmpty || (jsTrim content).isEmpty) = false →
        createDocument id [] content md ts = .ok ⟨id, [], content, md, ts⟩) := by
  refine ⟨?_, rfl, ?_⟩
  · intro id title content md ts h
    simp [createDocument, h]
  · intro id content md ts h
    simp [createDocument, h]

/-- Witness for the amended C3: empty content is rejected, while a
one-character content with an empty title is accepted. -/
theorem createDocument_validates_content_only_witness :
    ((List.isEmpty ([] : List Char) || (jsTrim []).isEmpty) = true ∧
      createDocument "d" ['t'] [] exampleMetadata 0
        = .error ⟨.emptyContent, "Document content cannot be empty"⟩) ∧
    ((List.isEmpty ['x'] || (jsTrim ['x']).isEmpty) = false ∧
      createDocument "d" [] ['x'] exampleMetadata 0
        = .ok ⟨"d", [], ['x'], exampleMetadata, 0⟩) :=
  ⟨⟨by decide, createDocument_validates_content_only.1 "d" ['t'] [] exampleMetadata 0 (by decide)⟩,
    ⟨by decide, createDocument_validates_content_only.2.2 "d" ['x'] exampleMetadata 0 (by decide)⟩⟩

/-! ### `createSyncResult` from `src/core/domain/document/entity.ts` -/

structure SyncEntry where
  id : String
  success : Bool
deriving DecidableEq

structure SyncResult where
  totalCount : Nat
  successCount : Nat
  failedCount : Nat
  failedIds : List String
deriving DecidableEq

def createSyncResult (results : List SyncEntry) : SyncResult :=
  let failedIds := (results.filter fun r => !r.success).map fun r => r.id
  { totalCount := results.length
    successCount := results.length - failedIds.length
    failedCount := failedIds.length
    failedIds := failedIds }

/-- Claim C9: `createSyncResult` satisfies
`successCount + failedCount = totalCount`, `totalCount` is the input length,
`failedIds` is exactly the ids of the unsuccessful pairs in original order,
and `failedIds.length = failedCount`. -/
theorem createSyncResult_spec (results : List SyncEntry) :
    (createSyncResult results).successCount + (createSyncResult results).failedCount
        = (createSyncResult results).totalCount ∧
    (createSyncResult results).totalCount = results.length ∧
    (createSyncResult results).failedIds
        = (results.filter fun r => r.success = false).map SyncEntry.id ∧
    (createSyncResult results).failedIds.length = (createSyncResult results).failedCount := by
  refine ⟨?_, rfl, ?_, rfl⟩
  · have hle : ((results.filter fun r => !r.success).map fun r => r.id).length
        ≤ results.length := by
      rw [List.length_map]
      exact List.length_filter_le _ _
    simpa [createSyncResult] using Nat.sub_add_cancel hle
  · simp [createSyncResult]

/-! ### Embedding of `src/core/domain/message/services/splitLongMessage.ts` -/

def MAX_TEXT_LENGTH : Nat := 5000

def MAX_MESSAGES : Nat := 5

def TRUNCATION_MESSAGE : List Char := "\n\n...続きは省略されました".toList

/-- `String.prototype.lastIndexOf` for a single character, started at
absolute position `i`: the rest of the list is searched first, so the
rightmost occurrence wins; `-1` when absent. -/
def lastIndexOfFrom (c : Char) : List Char → Nat → Int
  | [], _ => -1
  | x :: rest, i =>
    let r := lastIndexOfFrom c rest (i + 1)
    if 0 ≤ r then r else if x == c then (i : Int) else -1

def lastIndexOf (xs : List Char) (c : Char) : Int :=
  lastIndexOfFrom c xs 0

theorem lastIndexOfFrom_lt (c : Char) :
    ∀ (l : List Char) (i : Nat), lastIndexOfFrom c l i < (i : Int) + l.length := by
  intro l
  induction l with
  | nil =>
    intro i
    simp only [lastIndexOfFrom, List.length_nil]
    omega
  | cons x rest ih =>
    intro i
    have h := ih (i + 1)
    simp only [lastIndexOfFrom, List.length_cons]
    split
    · push_cast at h ⊢; omega
    · split
      · push_cast; omega
      · push_cast; omega

theorem lastIndexOf_lt (xs : List Char) (c : Char) :
    lastIndexOf xs c < (xs.length : Int) := by
  have := lastIndexOfFrom_lt c xs 0
  simpa [lastIndexOf] using this

/-- The `while` loop of `splitLongMessage`. The fuel is the number of loop
iterations still allowed (`MAX_MESSAGES - messages.length`); the result is
the list of pushed messages together with the final value of the mutable
`remaining` variable. Note that the early-exit branch (`remaining` fits)
pushes `remaining` but — exactly like the source's `break` — does not clear
the variable. -/
def splitLoop : Nat → List Char → List (List Char) × List Char
  | 0, remaining => ([], remaining)
  | fuel + 1, remaining =>
    if remaining.length = 0 then ([], remaining)
    else if remaining.length ≤ MAX_TEXT_LENGTH then ([remaining], remaining)
    else
      let searchRange := remaining.take MAX_TEXT_LENGTH
      let splitPos := max (lastIndexOf searchRange '。') (lastIndexOf searchRange '\n')
      if 0 < splitPos then
        let p := splitPos.toNat
        let r := splitLoop fuel (remaining.drop (p + 1))
        (remaining.take (p + 1) :: r.1, r.2)
      else
        let r := splitLoop fuel (remaining.drop MAX_TEXT_LENGTH)
        (remaining.take MAX_TEXT_LENGTH :: r.1, r.2)

def splitLongMessage (text : List Char) : List (List Char) :=
  if text.length = 0 then []
  else if text.length ≤ MAX_TEXT_LENGTH then [text]
  else
    let ms := splitLoop MAX_MESSAGES text
    if 0 < ms.2.length ∧ ms.1.length = MAX_MESSAGES then
      let lastMessage := ms.1.getLastD []
      let allowedLength := MAX_TEXT_LENGTH - TRUNCATION_MESSAGE.length
      let trimmed :=
        if allowedLength < lastMessage.length then lastMessage.take allowedLength
        else lastMessage
      ms.1.dropLast ++ [trimmed ++ TRUNCATION_MESSAGE]
    else ms.1

theorem splitLoop_length_le : ∀ (fuel : Nat) (rem : List Char),
    (splitLoop fuel rem).1.length ≤ fuel := by
  intro fuel
  induction fuel with
  | zero => intro rem; simp [splitLoop]
  | succ f ih =>
    intro rem
    simp only [splitLoop]
    split
    · simp
    · split
      · simp
      · split
        · simpa using Nat.succ_le_succ (ih _)
        · simpa using Nat.succ_le_succ (ih _)

theorem splitLoop_mem : ∀ (fuel : Nat) (rem : List Char),
    ∀ m ∈ (splitLoop fuel rem).1, 0 < m.length ∧ m.length ≤ MAX_TEXT_LENGTH := by
  intro fuel
  induction fuel with
  | zero => intro rem m hm; simp [splitLoop] at hm
  | succ f ih =>
    intro rem m hm
    simp only [splitLoop] at hm
    by_cases h0 : rem.length = 0
    · simp [h0] at hm
    · rw [if_neg h0] at hm
      by_cases h1 : rem.length ≤ MAX_TEXT_LENGTH
      · rw [if_pos h1] at hm
        simp at hm
        subst hm
        exact ⟨Nat.pos_of_ne_zero h0, h1⟩
      · rw [if_neg h1] at hm
        have hrem : MAX_TEXT_LENGTH < rem.length := Nat.lt_of_not_le h1
        have hsr : (rem.take MAX_TEXT_LENGTH).length = MAX_TEXT_LENGTH := by
          simpa using Nat.le_of_lt hrem
        by_cases h2 :
            0 < max (lastIndexOf (rem.take MAX_TEXT_LENGTH) '。')
                (lastIndexOf (rem.take MAX_TEXT_LENGTH) '\n')
        · rw [if_pos h2] at hm
          simp only [List.mem_cons] at hm
          rcases hm with hm | hm
          · subst hm
            set sp := max (lastIndexOf (rem.take MAX_TEXT_LENGTH) '。')
                (lastIndexOf (rem.take MAX_TEXT_LENGTH) '\n') with hsp
            have hlt : sp < (MAX_TEXT_LENGTH : Int) := by
              have a1 := lastIndexOf_lt (rem.take MAX_TEXT_LENGTH) '。'
              have a2 := lastIndexOf_lt (rem.take MAX_TEXT_LENGTH) '\n'
              rw [hsr] at a1 a2
              exact max_lt a1 a2
            have hp : sp.toNat < MAX_TEXT_LENGTH := by omega
            constructor
            · simp only [List.length_take]
              omega
            · simp only [List.length_take]
              omega
          · exact ih _ m hm
        · rw [if_neg h2] at hm
          simp only [List.mem_cons] at hm
          rcases hm with hm | hm
          · subst hm
            rw [hsr]
            exact ⟨by norm_num [MAX_TEXT_LENGTH], Nat.le_refl _⟩
          · exact ih _ m hm

theorem splitLoop_ne_nil (fuel : Nat) (rem : List Char)
    (hf : 0 < fuel) (hr : rem.length ≠ 0) : (splitLoop fuel rem).1 ≠ [] := by
  obtain ⟨f, rfl⟩ := Nat.exists_eq_succ_of_ne_zero (Nat.pos_iff_ne_zero.mp hf)
  simp only [splitLoop]
  rw [if_neg hr]
  by_cases h1 : rem.length ≤ MAX_TEXT_LENGTH
  · simp [h1]
  · rw [if_neg h1]
    split <;> simp

/-- Claim C7: every chunk returned by `splitLongMessage` has at most
`MAX_TEXT_LENGTH` (5000) characters, at most `MAX_MESSAGES` (5) chunks are
returned, and the result is the empty list exactly when the input text is
empty. -/
theorem splitLongMessage_bounds (text : List Char) :
    (∀ m ∈ splitLongMessage text, m.length ≤ MAX_TEXT_LENGTH) ∧
    (splitLongMessage text).length ≤ MAX_MESSAGES ∧
    (splitLongMessage text = [] ↔ text = []) := by
  unfold splitLongMessage
  by_cases h0 : text.length = 0
  · have htext : text = [] := List.eq_nil_of_length_eq_zero h0
    subst htext
    simp
  · rw [if_neg h0]
    have htne : text ≠ [] := fun h => h0 (by simp [h])
    by_cases h1 : text.length ≤ MAX_TEXT_LENGTH
    · rw [if_pos h1]
      refine ⟨?_, by norm_num [MAX_MESSAGES], iff_of_false (by simp) htne⟩
      intro m hm
      simp only [List.mem_singleton] at hm
      exact hm ▸ h1
    · rw [if_neg h1]
      have hmem := splitLoop_mem MAX_MESSAGES text
      have hlen := splitLoop_length_le MAX_MESSAGES text
      have hne : (splitLoop MAX_MESSAGES text).1 ≠ [] :=
        splitLoop_ne_nil MAX_MESSAGES text (by norm_num [MAX_MESSAGES]) h0
      by_cases h2 : 0 < (splitLoop MAX_MESSAGES text).2.length ∧
          (splitLoop MAX_MESSAGES text).1.length = MAX_MESSAGES
      · rw [if_pos h2]
        have h15 : TRUNCATION_MESSAGE.length = 15 := by decide
        refine ⟨?_, ?_, iff_of_false (by simp) htne⟩
        · intro m hm
          rw [List.mem_append] at hm
          rcases hm with hm | hm
          · exact (hmem m (List.mem_of_mem_dropLast hm)).2
          · simp only [List.mem_singleton] at hm
            subst hm
            have htr : (if MAX_TEXT_LENGTH - TRUNCATION_MESSAGE.length
                  < ((splitLoop MAX_MESSAGES text).1.getLastD []).length
                then ((splitLoop MAX_MESSAGES text).1.getLastD []).take
                  (MAX_TEXT_LENGTH - TRUNCATION_MESSAGE.length)
                else (splitLoop MAX_MESSAGES text).1.getLastD []).length
                ≤ MAX_TEXT_LENGTH - TRUNCATION_MESSAGE.length := by
              split
              · simp
              · omega
            rw [List.length_append]
            rw [h15] at htr ⊢
            norm_num [MAX_TEXT_LENGTH] at htr ⊢
            omega
        · rw [List.length_append, List.length_dropLast, h2.2]
          norm_num [MAX_MESSAGES]
      · rw [if_neg h2]
        exact ⟨fun m hm => (hmem m hm).2, hlen, iff_of_false hne htne⟩

/-- Witness for C7 at the one-character input: its single chunk is within
the limit, and concretely the chunk list is `[['a']]`. -/
theorem splitLongMessage_bounds_witness :
    ['a'] ∈ splitLongMessage ['a'] ∧ (['a'] : List Char).length ≤ MAX_TEXT_LENGTH ∧
    (splitLongMessage ['a'] = [] ↔ (['a'] : List Char) = []) :=
  ⟨by decide, (splitLongMessage_bounds ['a']).1 ['a'] (by decide),
    (splitLongMessage_bounds ['a']).2.2⟩

/-- Claim C10: every chunk emitted by `splitLongMessage` is a non-empty
string, including at forced-split and truncation boundaries. -/
theorem splitLongMessage_chunks_ne_empty (text : List Char) :
    ∀ m ∈ splitLongMessage text, 0 < m.length := by
  unfold splitLongMessage
  by_cases h0 : text.length = 0
  · simp [h0]
  · rw [if_neg h0]
    by_cases h1 : text.length ≤ MAX_TEXT_LENGTH
    · rw [if_pos h1]
      intro m hm
      simp only [List.mem_singleton] at hm
      subst hm
      exact Nat.pos_of_ne_zero h0
    · rw [if_neg h1]
      have hmem := splitLoop_mem MAX_MESSAGES text
      by_cases h2 : 0 < (splitLoop MAX_MESSAGES text).2.length ∧
          (splitLoop MAX_MESSAGES text).1.length = MAX_MESSAGES
      · rw [if_pos h2]
        intro m hm
        rw [List.mem_append] at hm
        rcases hm with hm | hm
        · exact (hmem m (List.mem_of_mem_dropLast hm)).1
        · simp only [List.mem_singleton] at hm
          subst hm
          have h15 : TRUNCATION_MESSAGE.length = 15 := by decide
          rw [List.length_append, h15]
          omega
      · rw [if_neg h2]
        exact fun m hm => (hmem m hm).1

/-- Witness for C10 at the one-character input. -/
theorem splitLongMessage_chunks_ne_empty_witness :
    ['a'] ∈ splitLongMessage ['a'] ∧ 0 < (['a'] : List Char).length :=
  ⟨by decide, splitLongMessage_chunks_ne_empty ['a'] ['a'] (by decide)⟩

theorem lastIndexOfFrom_of_forall_ne (c : Char) :
    ∀ (l : List Char) (i : Nat), (∀ x ∈ l, (x == c) = false) →
      lastIndexOfFrom c l i = -1 := by
  intro l
  induction l with
  | nil => intro i _; rfl
  | cons x rest ih =>
    intro i h
    have hr : lastIndexOfFrom c rest (i + 1) = -1 :=
      ih (i + 1) fun y hy => h y (List.mem_cons_of_mem x hy)
    have hx : (x == c) = false := h x (List.mem_cons_self x rest)
    simp [lastIndexOfFrom, hr, hx]

theorem lastIndexOf_replicate_ne (n : Nat) (a c : Char) (h : (a == c) = false) :
    lastIndexOf (List.replicate n a) c = -1 :=
  lastIndexOfFrom_of_forall_ne c (List.replicate n a) 0 fun _ hx =>
    (List.eq_of_mem_replicate hx) ▸ h

/-- Unfolding of one loop iteration in the forced-split case: the limit-sized
window holds neither a sentence terminator nor a line break. -/
theorem splitLoop_force (f : Nat) (rem : List Char)
    (h1 : MAX_TEXT_LENGTH < rem.length)
    (h2 : lastIndexOf (rem.take MAX_TEXT_LENGTH) '。' = -1)
    (h3 : lastIndexOf (rem.take MAX_TEXT_LENGTH) '\n' = -1) :
    splitLoop (f + 1) rem
      = (rem.take MAX_TEXT_LENGTH :: (splitLoop f (rem.drop MAX_TEXT_LENGTH)).1,
          (splitLoop f (rem.drop MAX_TEXT_LENGTH)).2) := by
  simp only [splitLoop, h2, h3]
  rw [if_neg (by omega), if_neg (by omega), if_neg (by norm_num)]

/-- Unfolding of the loop's early exit: a non-empty remainder that already
fits is pushed as-is, and — like the source's `break` — the remainder
variable keeps its value. -/
theorem splitLoop_fits (f : Nat) (rem : List Char)
    (h0 : rem.length ≠ 0) (h1 : rem.length ≤ MAX_TEXT_LENGTH) :
    splitLoop (f + 1) rem = ([rem], rem) := by
  simp only [splitLoop]
  rw [if_neg h0, if_pos h1]

theorem splitLoop_replicate_step (f n : Nat) (h : MAX_TEXT_LENGTH < n) :
    splitLoop (f + 1) (List.replicate n 'A')
      = (List.replicate MAX_TEXT_LENGTH 'A'
            :: (splitLoop f (List.replicate (n - MAX_TEXT_LENGTH) 'A')).1,
          (splitLoop f (List.replicate (n - MAX_TEXT_LENGTH) 'A')).2) := by
  have htake : (List.replicate n 'A').take MAX_TEXT_LENGTH
      = List.replicate MAX_TEXT_LENGTH 'A' := by
    rw [List.take_replicate]
    congr 1
    omega
  have hdrop : (List.replicate n 'A').drop MAX_TEXT_LENGTH
      = List.replicate (n - MAX_TEXT_LENGTH) 'A' := List.drop_replicate ..
  rw [splitLoop_force f _ (by simpa using h)
      (by rw [htake]; exact lastIndexOf_replicate_ne _ _ _ (by decide))
      (by rw [htake]; exact lastIndexOf_replicate_ne _ _ _ (by decide)),
    htake, hdrop]

/-- Claim C2, evaluated at the failing input: a text of 20001 identical
characters splits into exactly five chunks that together carry the whole
text (four full chunks and one final character), yet the truncation marker
is still appended to the fifth chunk — the code marks as truncated a text
that fit exactly within the chunk budget. -/
theorem splitLongMessage_marker_despite_fit :
    splitLongMessage (List.replicate 20001 'A')
      = [List.replicate 5000 'A', List.replicate 5000 'A', List.replicate 5000 'A',
          List.replicate 5000 'A', 'A' :: TRUNCATION_MESSAGE] ∧
    List.replicate 5000 'A' ++ List.replicate 5000 'A' ++ List.replicate 5000 'A'
        ++ List.replicate 5000 'A' ++ ['A'] = List.replicate 20001 'A' := by
  have hM : MAX_TEXT_LENGTH = 5000 := rfl
  have e1 := splitLoop_replicate_step 4 20001 (by norm_num [MAX_TEXT_LENGTH])
  have e2 := splitLoop_replicate_step 3 (20001 - MAX_TEXT_LENGTH) (by norm_num [MAX_TEXT_LENGTH])
  have e3 := splitLoop_replicate_step 2 (20001 - MAX_TEXT_LENGTH - MAX_TEXT_LENGTH)
    (by norm_num [MAX_TEXT_LENGTH])
  have e4 := splitLoop_replicate_step 1
    (20001 - MAX_TEXT_LENGTH - MAX_TEXT_LENGTH - MAX_TEXT_LENGTH) (by norm_num [MAX_TEXT_LENGTH])
  have e5 : splitLoop 1 (List.replicate
        (20001 - MAX_TEXT_LENGTH - MAX_TEXT_LENGTH - MAX_TEXT_LENGTH - MAX_TEXT_LENGTH) 'A')
      = ([List.replicate 1 'A'], List.replicate 1 'A') := by
    rw [show 20001 - MAX_TEXT_LENGTH - MAX_TEXT_LENGTH - MAX_TEXT_LENGTH - MAX_TEXT_LENGTH = 1
      by norm_num [MAX_TEXT_LENGTH]]
    exact splitLoop_fits 0 _ (by simp) (by norm_num [MAX_TEXT_LENGTH])
  have eAll : splitLoop MAX_MESSAGES (List.replicate 20001 'A')
      = ([List.replicate MAX_TEXT_LENGTH 'A', List.replicate MAX_TEXT_LENGTH 'A',
          List.replicate MAX_TEXT_LENGTH 'A', List.replicate MAX_TEXT_LENGTH 'A',
          List.replicate 1 'A'], List.replicate 1 'A') := by
    show splitLoop 5 (List.replicate 20001 'A') = _
    rw [show (5 : Nat) = 4 + 1 from rfl, e1, show (4 : Nat) = 3 + 1 from rfl, e2,
      show (3 : Nat) = 2 + 1 from rfl, e3, show (2 : Nat) = 1 + 1 from rfl, e4, e5]
  constructor
  · unfold splitLongMessage
    rw [if_neg (by rw [List.length_replicate]; omega),
      if_neg (by rw [List.length_replicate, hM]; omega)]
    simp only [eAll]
    rw [if_pos ⟨by rw [List.length_replicate]; omega, rfl⟩]
    have h15 : TRUNCATION_MESSAGE.length = 15 := by decide
    simp only [List.getLastD_cons, List.getLastD_nil]
    rw [if_neg (by rw [List.length_replicate, h15, hM]; omega)]
    simp only [List.dropLast_cons₂, List.dropLast_single, List.replicate_one,
      List.cons_append, List.nil_append]
    rfl
  · rw [show (20001 : Nat) = 5000 + (5000 + (5000 + (5000 + 1))) by norm_num]
    simp only [List.replicate_add, List.replicate_one, List.append_assoc]

/-! ### Embedding of `src/core/adapters/line/lineApiClient.ts` (retry executor) -/

/-- A thrown remote error as seen by `getStatusCode`: an object that may
carry a numeric `statusCode` field and/or a numeric `status` field. -/
structure RemoteError where
  statusCode : Option Nat := none
  status : Option Nat := none
deriving DecidableEq

def getStatusCode (e : RemoteError) : Option Nat :=
  match e.statusCode with
  | some v => some v
  | none => e.status

/-- `LineApiClient.isRetryableError`: no status code, 429, and 5xx retry;
other 4xx do not; anything else retries. -/
def isRetryableError (e : RemoteError) : Bool :=
  match getStatusCode e with
  | none => true
  | some c =>
    if c == 429 then true
    else if 500 ≤ c && c < 600 then true
    else if 400 ≤ c && c < 500 then false
    else true

inductive SystemErrorCode where
  | internalServerError
  | databaseError
  | dataInconsistency
  | networkError
  | rateLimitExceeded
  | indexAddFailed
  | indexClearFailed
  | indexQueryFailed
  | indexStatusFailed
deriving DecidableEq

structure SystemFault where
  code : SystemErrorCode
  message : String
  cause : Option RemoteError := none
deriving DecidableEq

structure RetryPolicy where
  maxRetries : Nat
  initialDelayMs : Nat
  maxDelayMs : Nat
  backoffMultiplier : Nat
deriving DecidableEq

/-- Observable behaviour of one `withRetry` execution: how many times the
wrapped operation ran, the backoff delays slept in order, and the final
outcome. -/
structure RetryTrace where
  attempts : Nat
  delays : List Nat
  result : Except SystemFault Unit

/-- The `for (let attempt = 0; attempt <= maxRetries; attempt++)` loop of
`LineApiClient.withRetry`. The fuel is the number of loop iterations still
to run (`maxRetries + 1 - attempt`); `op n` is the outcome of the wrapped
call on attempt `n`; accumulated delays are kept reversed. -/
def withRetryGo (p : RetryPolicy) (errorMessage : String)
    (op : Nat → Except RemoteError Unit) :
    Nat → Nat → List Nat → Option RemoteError → RetryTrace
  | 0, attempt, delays, lastError =>
    ⟨attempt, delays.reverse, .error ⟨.networkError, errorMessage, lastError⟩⟩
  | fuel + 1, attempt, delays, _ =>
    match op attempt with
    | .ok _ => ⟨attempt + 1, delays.reverse, .ok ()⟩
    | .error e =>
      if isRetryableError e = false then
        ⟨attempt + 1, delays.reverse, .error ⟨.internalServerError, errorMessage, some e⟩⟩
      else if attempt < p.maxRetries then
        let d := min (p.initialDelayMs * p.backoffMultiplier ^ attempt) p.maxDelayMs
        withRetryGo p errorMessage op fuel (attempt + 1) (d :: delays) (some e)
      else
        withRetryGo p errorMessage op fuel (attempt + 1) delays (some e)

def withRetry (p : RetryPolicy) (errorMessage : String)
    (op : Nat → Except RemoteError Unit) : RetryTrace :=
  withRetryGo p errorMessage op (p.maxRetries + 1) 0 [] none

theorem withRetryGo_delays_le (p : RetryPolicy) (msg : String)
    (op : Nat → Except RemoteError Unit) :
    ∀ (fuel attempt : Nat) (delays : List Nat) (lastError : Option RemoteError),
      (∀ d ∈ delays, d ≤ p.maxDelayMs) →
      ∀ d ∈ (withRetryGo p msg op fuel attempt delays lastError).delays, d ≤ p.maxDelayMs := by
  intro fuel
  induction fuel with
  | zero =>
    intro attempt delays lastError hd d hdm
    simp only [withRetryGo] at hdm
    exact hd d (List.mem_reverse.mp hdm)
  | succ f ih =>
    intro attempt delays lastError hd d hdm
    simp only [withRetryGo] at hdm
    split at hdm
    · exact hd d (List.mem_reverse.mp hdm)
    · split at hdm
      · exact hd d (List.mem_reverse.mp hdm)
      · split at hdm
        · refine ih _ _ _ ?_ d hdm
          intro d' hd'
          rcases List.mem_cons.mp hd' with hd' | hd'
          · exact hd' ▸ Nat.min_le_right _ _
          · exact hd d' hd'
        · exact ih _ _ _ hd d hdm

def policyC5 : RetryPolicy := ⟨3, 100, 10000, 2⟩

def opAlways500 : Nat → Except RemoteError Unit := fun _ => .error ⟨some 500, none⟩

def opAlways404 : Nat → Except RemoteError Unit := fun _ => .error ⟨some 404, none⟩

/-- Claim C5: under the policy `maxRetries = 3, initialDelay = 100,
multiplier = 2` (with the default 10000 ms delay cap), an operation that
always fails with status 500 runs exactly 4 times, sleeping 100, 200 and
400 ms, and ends in a `NETWORK_ERROR` (exhausted-retries) fault; an
operation failing with status 404 runs exactly once and ends in an
`INTERNAL_SERVER_ERROR` fault; the two fault kinds differ; and every delay
the executor ever sleeps is capped at `maxDelayMs`. -/
theorem withRetry_classified_backoff :
    withRetry policyC5 "Failed to push message" opAlways500
      = ⟨4, [100, 200, 400],
          .error ⟨.networkError, "Failed to push message", some ⟨some 500, none⟩⟩⟩ ∧
    withRetry policyC5 "Failed to push message" opAlways404
      = ⟨1, [],
          .error ⟨.internalServerError, "Failed to push message", some ⟨some 404, none⟩⟩⟩ ∧
    SystemErrorCode.networkError ≠ SystemErrorCode.internalServerError ∧
    ((withRetry policyC5 "Failed to push message" opAlways500).delays.all
      fun d => d ≤ policyC5.maxDelayMs) = true := by
  refine ⟨rfl, rfl, by decide, by decide⟩

/-! ### Embedding of `LlamaIndexGeminiIndexBuilder.addDocumentsWithRetry`
(`src/core/adapters/llamaIndexGemini/indexBuilder.ts`) -/

/-- The adapter's own retry loop: every caught error is retried (there is
no classifier call), the backoff is `retryDelay * 2 ** attempt` with no
`min` against any maximum delay, and exhaustion raises an
`INDEX_ADD_FAILED` system fault wrapping the last error. -/
def addDocumentsWithRetryGo (maxRetries retryDelay : Nat)
    (op : Nat → Except RemoteError Unit) :
    Nat → Nat → List Nat → Option RemoteError → RetryTrace
  | 0, attempt, delays, lastError =>
    ⟨attempt, delays.reverse,
      .error ⟨.indexAddFailed, "Failed to add documents to index", lastError⟩⟩
  | fuel + 1, attempt, delays, _ =>
    match op attempt with
    | .ok _ => ⟨attempt + 1, delays.reverse, .ok ()⟩
    | .error e =>
      if attempt < maxRetries then
        let d := retryDelay * 2 ^ attempt
        addDocumentsWithRetryGo maxRetries retryDelay op fuel (attempt + 1) (d :: delays) (some e)
      else
        addDocumentsWithRetryGo maxRetries retryDelay op fuel (attempt + 1) delays (some e)

def addDocumentsWithRetry (maxRetries retryDelay : Nat)
    (op : Nat → Except RemoteError Unit) : RetryTrace :=
  addDocumentsWithRetryGo maxRetries retryDelay op (maxRetries + 1) 0 [] none

def opAlways400 : Nat → Except RemoteError Unit := fun _ => .error ⟨some 400, none⟩

/-- Claim C6, counterexample: against the Retryable Call Executor contract,
the index-mutation adapter retries an error with status 400 (a 4xx other
than 429) through all attempts — 4 attempts instead of failing after 1 —
and with a larger budget its uncapped backoff reaches 16000 ms, above the
10000 ms cap the shared executor would enforce. -/
theorem addDocumentsWithRetry_retries_4xx :
    (addDocumentsWithRetry 3 1000 opAlways400).attempts = 4 ∧
    (addDocumentsWithRetry 3 1000 opAlways400).attempts ≠ 1 ∧
    (addDocumentsWithRetry 3 1000 opAlways400).delays = [1000, 2000, 4000] ∧
    (addDocumentsWithRetry 5 1000 opAlways400).delays
      = [1000, 2000, 4000, 8000, 16000] := by
  refine ⟨rfl, by decide, rfl, rfl⟩

theorem addDocumentsWithRetryGo_allFail (mr rd : Nat) (es : Nat → RemoteError) :
    ∀ (fuel attempt : Nat) (delays : List Nat) (lastError : Option RemoteError),
      attempt + fuel = mr + 1 →
      addDocumentsWithRetryGo mr rd (fun n => .error (es n)) fuel attempt delays lastError
        = ⟨mr + 1,
            delays.reverse ++ (List.range' attempt (fuel - 1)).map (fun i => rd * 2 ^ i),
            .error ⟨.indexAddFailed, "Failed to add documents to index",
              if fuel = 0 then lastError else some (es mr)⟩⟩ := by
  intro fuel
  induction fuel with
  | zero =>
    intro attempt delays lastError h
    have ha : attempt = mr + 1 := by omega
    subst ha
    simp [addDocumentsWithRetryGo]
  | succ f ih =>
    intro attempt delays lastError h
    simp only [addDocumentsWithRetryGo]
    by_cases hlt : attempt < mr
    · rw [if_pos hlt]
      have hf : 0 < f := by omega
      rw [ih (attempt + 1) (rd * 2 ^ attempt :: delays) (some (es attempt)) (by omega)]
      have hrange : List.range' attempt (f + 1 - 1)
          = attempt :: List.range' (attempt + 1) (f - 1) := by
        have : f + 1 - 1 = (f - 1) + 1 := by omega
        rw [this, List.range'_succ]
      rw [hrange]
      simp only [List.reverse_cons, List.map_cons, List.append_assoc, List.cons_append,
        List.nil_append]
      have hf0 : ¬ f = 0 := by omega
      have hf10 : ¬ f + 1 = 0 := by omega
      simp [hf0, hf10]
    · rw [if_neg hlt]
      have ha : attempt = mr := by omega
      have hf : f = 0 := by omega
      subst ha hf
      simp [addDocumentsWithRetryGo]

/-- Claim C6 (amended): `addDocumentsWithRetry` does not follow the
Retryable Call Executor contract — it consults no error classifier, so an
operation failing every time (with any errors, 4xx included) is attempted
exactly `maxRetries + 1` times; its backoff delays are
`retryDelay * 2 ^ attempt` with no maximum-delay cap; and it ends in an
`INDEX_ADD_FAILED` fault wrapping the last attempt's error. -/
theorem addDocumentsWithRetry_always_retries (mr rd : Nat) (es : Nat → RemoteError) :
    (addDocumentsWithRetry mr rd (fun n => .error (es n))).attempts = mr + 1 ∧
    (addDocumentsWithRetry mr rd (fun n => .error (es n))).delays
      = (List.range mr).map (fun i => rd * 2 ^ i) ∧
    (addDocumentsWithRetry mr rd (fun n => .error (es n))).result
      = .error ⟨.indexAddFailed, "Failed to add documents to index", some (es mr)⟩ := by
  have h := addDocumentsWithRetryGo_allFail mr rd es (mr + 1) 0 [] none (by omega)
  rw [addDocumentsWithRetry, h]
  refine ⟨rfl, ?_, by simp⟩
  simp [List.range_eq_range']

/-! ### Embedding of `src/core/application/sync/syncDocuments.ts`

The orchestrator is embedded as a pure function over an environment that
fixes the outcome of every external call of one run: the start
notification (reply), the index clear, the document stream (the documents
yielded plus an optional mid-stream failure), the per-batch `addDocuments`
responses, the terminal notifications, and the measured elapsed time.
A call whose outcome is `.ok` was delivered/performed; `.error` means the
awaited promise rejected at that point. -/

/-- Errors classified by the catch block: `isNotFoundError`,
`isSystemError`, anything else. -/
inductive AppError where
  | notFound (message : String)
  | system (code : SystemErrorCode) (message : String)
  | other (message : String)
deriving DecidableEq

inductive NotifyErrorType where
  | notFound
  | system
  | unknown
deriving DecidableEq

/-- The `type`/`message` pair passed to `notifySyncError` by the catch
block's `instanceof` cascade. -/
def errorNotificationOf : AppError → NotifyErrorType × String
  | .notFound m => (.notFound, m)
  | .system _ m => (.system, m)
  | .other m => (.unknown, m)

inductive SentNotification where
  | syncStarting
  | noDocumentsFound
  | syncCompleted (result : SyncResult) (totalEntries : Nat) (buildDuration : Nat)
  | syncError (t : NotifyErrorType) (message : String)
deriving DecidableEq

structure SyncEnv where
  startResult : Except AppError Unit
  clearResult : Except AppError Unit
  docs : List Document
  sourceFailure : Option AppError
  addResult : Nat → Except AppError Nat
  syncBatchSize : Nat
  noDocsResult : Except AppError Unit
  completedResult : Except AppError Unit
  errorNotifyResult : Except AppError Unit
  elapsedMs : Nat

/-- The batches that `for await (const batch of batchIterate(...))` actually
receives: all of them when the stream ends normally; only the full ones
when the stream throws mid-iteration (a partial batch in progress is never
yielded, full batches were already yielded before the failing pull). -/
def emittedBatches (env : SyncEnv) : List (List Document) :=
  let bs := batchIterate env.docs env.syncBatchSize
  match env.sourceFailure with
  | none => bs
  | some _ => bs.filter fun b => b.length == env.syncBatchSize

/-- The loop body: per batch, `successCount += batch.length` and an awaited
`addDocuments` whose reported `totalEntries` is accumulated; a rejected
`addDocuments` aborts the run. -/
def processBatches (add : Nat → Except AppError Nat) :
    List (List Document) → Nat → Nat → Nat → Except AppError (Nat × Nat)
  | [], _, successCount, totalEntries => .ok (successCount, totalEntries)
  | b :: rest, i, successCount, totalEntries =>
    match add i with
    | .error e => .error e
    | .ok n => processBatches add rest (i + 1) (successCount + b.length) (totalEntries + n)

/-- Outcome of the whole batching phase, including the stream failure that
fires after the last emitted batch. -/
def batchPhase (env : SyncEnv) : Except AppError (Nat × Nat) :=
  match processBatches env.addResult (emittedBatches env) 0 0 0 with
  | .error e => .error e
  | .ok r =>
    match env.sourceFailure with
    | some e => .error e
    | none => .ok r

structure SyncOutput where
  totalDocuments : Nat
  successCount : Nat
  failedCount : Nat
  totalEntries : Nat
  buildDuration : Nat
deriving DecidableEq

/-- Observable behaviour of one `syncDocuments` run: its returned value or
raised error, the notifications that were delivered, and the errors the
catch block logged. -/
structure SyncRun where
  result : Except AppError SyncOutput
  sent : List SentNotification
  loggedErrors : List AppError

/-- The catch block: log the original error, then `await notifySyncError`;
if that await itself rejects, its error propagates and the final
`throw error` is never reached. -/
def handleSyncError (env : SyncEnv) (e : AppError) (sent : List SentNotification) : SyncRun :=
  match env.errorNotifyResult with
  | .error e2 => ⟨.error e2, sent, [e]⟩
  | .ok _ =>
    ⟨.error e, sent ++ [.syncError (errorNotificationOf e).1 (errorNotificationOf e).2], [e]⟩

def syncDocuments (env : SyncEnv) : SyncRun :=
  match env.startResult with
  | .error e => ⟨.error e, [], []⟩
  | .ok _ =>
    let sent := [SentNotification.syncStarting]
    match env.clearResult with
    | .error e => handleSyncError env e sent
    | .ok _ =>
      match batchPhase env with
      | .error e => handleSyncError env e sent
      | .ok (successCount, totalEntries) =>
        if successCount = 0 then
          match env.noDocsResult with
          | .error e => handleSyncError env e sent
          | .ok _ => ⟨.ok ⟨0, 0, 0, 0, 0⟩, sent ++ [.noDocumentsFound], []⟩
        else
          match env.completedResult with
          | .error e => handleSyncError env e sent
          | .ok _ =>
            ⟨.ok ⟨successCount, successCount, 0, totalEntries, env.elapsedMs⟩,
              sent ++ [.syncCompleted ⟨successCount, successCount, 0, []⟩
                totalEntries env.elapsedMs], []⟩

/-- The first error that aborts a run which got past the start
notification, i.e. the "original failure" handed to the catch block
(`none` when the run succeeds). -/
def runOriginalFailure (env : SyncEnv) : Option AppError :=
  match env.clearResult with
  | .error e => some e
  | .ok _ =>
    match batchPhase env with
    | .error e => some e
    | .ok (successCount, _) =>
      if successCount = 0 then
        match env.noDocsResult with
        | .error e => some e
        | .ok _ => none
      else
        match env.completedResult with
        | .error e => some e
        | .ok _ => none

/-- A run that reached the catch block behaves exactly like
`handleSyncError` applied to the original failure. -/
theorem syncDocuments_eq_handle (env : SyncEnv) (e : AppError)
    (h0 : env.startResult = .ok ()) (h : runOriginalFailure env = some e) :
    syncDocuments env = handleSyncError env e [SentNotification.syncStarting] := by
  unfold syncDocuments
  unfold runOriginalFailure at h
  rw [h0]
  cases hclear : env.clearResult with
  | error ec =>
    rw [hclear] at h
    simp only [Option.some.injEq] at h
    subst h
    rfl
  | ok u =>
    cases u
    rw [hclear] at h
    cases hbp : batchPhase env with
    | error eb =>
      rw [hbp] at h
      simp only [Option.some.injEq] at h
      subst h
      rfl
    | ok p =>
      obtain ⟨succ, entries⟩ := p
      rw [hbp] at h
      dsimp only at h ⊢
      by_cases hsucc : succ = 0
      · rw [if_pos hsucc] at h
        rw [if_pos hsucc]
        cases hnd : env.noDocsResult with
        | error en =>
          rw [hnd] at h
          simp only [Option.some.injEq] at h
          subst h
          rfl
        | ok u2 => rw [hnd] at h; cases h
      · rw [if_neg hsucc] at h
        rw [if_neg hsucc]
        cases hcp : env.completedResult with
        | error en =>
          rw [hcp] at h
          simp only [Option.some.injEq] at h
          subst h
          rfl
        | ok u2 => rw [hcp] at h; cases h

def envNotifyFailAfterClearFail : SyncEnv :=
  { startResult := .ok ()
    clearResult := .error (.system .indexClearFailed "Failed to clear index")
    docs := []
    sourceFailure := none
    addResult := fun _ => .ok 0
    syncBatchSize := 100
    noDocsResult := .ok ()
    completedResult := .ok ()
    errorNotifyResult := .error (.system .networkError "Failed to push message")
    elapsedMs := 0 }

/-- Claim C1, counterexample: in a run whose original failure is the index
clear error, a failing error-notification send makes `syncDocuments` raise
the notification failure — a different error — to the caller, masking the
original failure. -/
theorem syncDocuments_notification_failure_masks :
    (syncDocuments envNotifyFailAfterClearFail).result
        = .error (.system .networkError "Failed to push message") ∧
    runOriginalFailure envNotifyFailAfterClearFail
        = some (.system .indexClearFailed "Failed to clear index") ∧
    (AppError.system .networkError "Failed to push message")
        ≠ .system .indexClearFailed "Failed to clear index" := by
  refine ⟨rfl, rfl, by decide⟩

/-- Claim C1 (amended): for every failing run, the original failure is
logged before the notification attempt; when the error notification
succeeds, the original failure is the error raised to the caller, but when
the notification send itself fails, the notification failure — not the
original error — is the one raised. -/
theorem syncDocuments_error_propagation (env : SyncEnv) (e : AppError)
    (h0 : env.startResult = .ok ()) (h : runOriginalFailure env = some e) :
    (env.errorNotifyResult = .ok () → (syncDocuments env).result = .error e) ∧
    (∀ e2, env.errorNotifyResult = .error e2 → (syncDocuments env).result = .error e2) ∧
    e ∈ (syncDocuments env).loggedErrors := by
  rw [syncDocuments_eq_handle env e h0 h]
  unfold handleSyncError
  cases hn : env.errorNotifyResult with
  | error e2 =>
    dsimp only
    refine ⟨?_, ?_, ?_⟩
    · intro hok
      simp at hok
    · intro e3 h3
      injection h3 with h4
      subst h4
      rfl
    · simp
  | ok u =>
    cases u
    dsimp only
    refine ⟨?_, ?_, ?_⟩
    · intro _
      rfl
    · intro e3 h3
      simp at h3
    · simp

def envClearFailNotifyOk : SyncEnv :=
  { envNotifyFailAfterClearFail with errorNotifyResult := .ok () }

/-- Witness for the amended C1 at a concrete failing run whose error
notification succeeds: the original failure is re-raised and logged. -/
theorem syncDocuments_error_propagation_witness :
    envClearFailNotifyOk.startResult = .ok () ∧
    runOriginalFailure envClearFailNotifyOk
        = some (.system .indexClearFailed "Failed to clear index") ∧
    ((envClearFailNotifyOk.errorNotifyResult = .ok () →
        (syncDocuments envClearFailNotifyOk).result
          = .error (.system .indexClearFailed "Failed to clear index")) ∧
      (∀ e2, envClearFailNotifyOk.errorNotifyResult = .error e2 →
        (syncDocuments envClearFailNotifyOk).result = .error e2) ∧
      (AppError.system .indexClearFailed "Failed to clear index")
        ∈ (syncDocuments envClearFailNotifyOk).loggedErrors) :=
  ⟨rfl, rfl, syncDocuments_error_propagation envClearFailNotifyOk _ rfl rfl⟩

def isTerminal : SentNotification → Bool
  | .syncStarting => false
  | _ => true

theorem handleSyncError_terminal (env : SyncEnv) (e : AppError) :
    ((handleSyncError env e [SentNotification.syncStarting]).sent.filter isTerminal).length ≤ 1 ∧
    (env.errorNotifyResult = .ok () →
      ((handleSyncError env e [SentNotification.syncStarting]).sent.filter
        isTerminal).length = 1) := by
  unfold handleSyncError
  cases hn : env.errorNotifyResult with
  | error e2 =>
    exact ⟨by simp [isTerminal], fun hok => nomatch hok⟩
  | ok u =>
    cases u
    exact ⟨by simp [isTerminal], fun _ => by simp [isTerminal]⟩

def envSourceAndNotifyFail : SyncEnv :=
  { startResult := .ok ()
    clearResult := .ok ()
    docs := []
    sourceFailure := some (.system .networkError "Failed to fetch documents")
    addResult := fun _ => .ok 0
    syncBatchSize := 100
    noDocsResult := .ok ()
    completedResult := .ok ()
    errorNotifyResult := .error (.system .networkError "Failed to push message")
    elapsedMs := 0 }

/-- Claim C4, counterexample: when the document stream fails and the error
notification send also fails, the requester receives zero terminal
messages for the run — not exactly one. -/
theorem syncDocuments_zero_terminal_notices :
    ((syncDocuments envSourceAndNotifyFail).sent.filter isTerminal).length = 0 ∧
    ((syncDocuments envSourceAndNotifyFail).sent.filter isTerminal).length ≠ 1 := by
  refine ⟨rfl, by decide⟩

/-- Claim C4 (amended): every run delivers at most one terminal message
(completion summary, no-documents notice, or error notice), and a run
whose start notification and terminal notification sends all succeed
delivers exactly one. -/
theorem syncDocuments_terminal_notice (env : SyncEnv) :
    ((syncDocuments env).sent.filter isTerminal).length ≤ 1 ∧
    (env.startResult = .ok () → env.noDocsResult = .ok () →
      env.completedResult = .ok () → env.errorNotifyResult = .ok () →
      ((syncDocuments env).sent.filter isTerminal).length = 1) := by
  unfold syncDocuments
  cases hs : env.startResult with
  | error e =>
    exact ⟨by simp, fun h0 => nomatch h0⟩
  | ok u =>
    cases u
    cases hclear : env.clearResult with
    | error e =>
      exact ⟨(handleSyncError_terminal env e).1,
        fun _ _ _ h3 => (handleSyncError_terminal env e).2 h3⟩
    | ok u2 =>
      cases u2
      cases hbp : batchPhase env with
      | error e =>
        exact ⟨(handleSyncError_terminal env e).1,
          fun _ _ _ h3 => (handleSyncError_terminal env e).2 h3⟩
      | ok p =>
        obtain ⟨succ, entries⟩ := p
        dsimp only
        by_cases hsucc : succ = 0
        · rw [if_pos hsucc]
          cases hnd : env.noDocsResult with
          | error e =>
            exact ⟨(handleSyncError_terminal env e).1, fun _ h1 => nomatch h1⟩
          | ok u3 =>
            cases u3
            exact ⟨by simp [isTerminal], fun _ _ _ _ => by simp [isTerminal]⟩
        · rw [if_neg hsucc]
          cases hcp : env.completedResult with
          | error e =>
            exact ⟨(handleSyncError_terminal env e).1, fun _ _ h2 => nomatch h2⟩
          | ok u3 =>
            cases u3
            exact ⟨by simp [isTerminal], fun _ _ _ _ => by simp [isTerminal]⟩

def envAllOk : SyncEnv :=
  { startResult := .ok ()
    clearResult := .ok ()
    docs := [⟨"doc-1", ['t'], ['c'], exampleMetadata, 0⟩]
    sourceFailure := none
    addResult := fun _ => .ok 5
    syncBatchSize := 100
    noDocsResult := .ok ()
    completedResult := .ok ()
    errorNotifyResult := .ok ()
    elapsedMs := 1000 }

/-- Witness for the amended C4 at a fully successful concrete run: exactly
one terminal notice is delivered. -/
theorem syncDocuments_terminal_notice_witness :
    ((syncDocuments envAllOk).sent.filter isTerminal).length = 1 :=
  (syncDocuments_terminal_notice envAllOk).2 rfl rfl rfl rfl

end RagBot
